import Mathlib

/-!
Shallow embedding of the grid-addressed glyph rendering core of the rush
terminal prototype (src/src/main.rs).  Pure data and control flow are
translated from the source; the OpenGL and FreeType calls, which only move
pixels, are elided.  f32 arithmetic is modelled exactly over the rationals
and usize arithmetic over Nat.  The Rust byte slice buf[offset..] is
modelled by List.drop, which agrees with the source on every execution in
which the slice does not panic (the buffer only ever holds ASCII
characters, so byte indices and character indices coincide).
-/

/-- Glyph record, struct Character in src/src/main.rs (lines 22-27):
bitmap size and bearing in pixels, advance in 26.6 fixed point units. -/
structure Character where
  texture_id : Nat
  size : Int × Int
  bearing : Int × Int
  advance : Int
  deriving DecidableEq

/-- Grid record from src/src/main.rs (lines 29-34): rows, cols and the
fixed cell pitch in pixels. -/
structure Grid where
  rows : Nat
  cols : Nat
  cell_width : ℚ
  cell_height : ℚ
  deriving DecidableEq

/-- CharacterDimensions from src/src/main.rs (lines 145-148). -/
structure CharacterDimensions where
  width : Nat
  height : Nat
  deriving DecidableEq

/-- WindowState from src/src/main.rs (lines 42-61): the text buffer, the
index at which rendering begins, and the next cell cursor. -/
structure WindowState where
  width : ℚ
  height : ℚ
  grid : Grid
  buffer : List Char
  display_offset : Nat
  next_cell : Nat × Nat
  deriving DecidableEq

/-- WindowState::new (src/src/main.rs lines 64-80).  The source truncates
the f32 window dimensions to usize and then performs usize division. -/
def WindowState.new (width height : ℚ) (char_dimensions : CharacterDimensions) : WindowState :=
  let cell_width : ℚ := (char_dimensions.width : ℚ)
  let cell_height : ℚ := (char_dimensions.height : ℚ)
  { width := width
    height := height
    grid :=
      { cell_width := cell_width
        cell_height := cell_height
        rows := height.floor.toNat / cell_height.floor.toNat
        cols := width.floor.toNat / cell_width.floor.toNat }
    buffer := []
    display_offset := 0
    next_cell := (0, 0) }

/-- WindowState::advance (src/src/main.rs lines 82-89): move the next cell
cursor one column right, wrapping to the next row at column cols - 1. -/
def WindowState.advance (ws : WindowState) : WindowState :=
  if ws.next_cell.2 = ws.grid.cols - 1 then
    { ws with next_cell := (ws.next_cell.1 + 1, 0) }
  else
    { ws with next_cell := (ws.next_cell.1, ws.next_cell.2 + 1) }

/-- WindowState::scroll (src/src/main.rs lines 91-102): begin rendering
one row later in the buffer. -/
def WindowState.scroll (ws : WindowState) : WindowState :=
  { ws with display_offset := ws.display_offset + ws.grid.cols }

/-- WindowState::reset_cell (src/src/main.rs lines 104-106). -/
def WindowState.reset_cell (ws : WindowState) : WindowState :=
  { ws with next_cell := (0, 0) }

/-- WindowState::update_size (src/src/main.rs lines 108-113): store the new
viewport size and recompute rows and cols from the cached cell pitch by f32
division truncated to usize. -/
def WindowState.update_size (ws : WindowState) (width height : ℚ) : WindowState :=
  { ws with
    width := width
    height := height
    grid :=
      { ws.grid with
        rows := (height / ws.grid.cell_height).floor.toNat
        cols := (width / ws.grid.cell_width).floor.toNat } }

/-- The for loop of render_screen_buffer (src/src/main.rs lines 385-415)
with the draw calls elided: each character is emitted at the current next
cell, after which the cursor advances.  Returns the emitted
(character, cell) pairs and the final state. -/
def renderLoop : WindowState → List Char → List (Char × (Nat × Nat)) × WindowState
  | ws, [] => ([], ws)
  | ws, c :: rest =>
    let r := renderLoop ws.advance rest
    ((c, ws.next_cell) :: r.1, r.2)

/-- Cell and scroll dynamics of render_screen_buffer (src/src/main.rs lines
368-417), the render_pass_cells operation of the grid model: reset the cell
cursor, scroll once if the visible slice plus the cursor would overflow the
grid, then walk the visible slice.  The per character glyph lookup of the
source is modelled separately by render_screen_buffer below. -/
def render_pass_cells (ws : WindowState) : List (Char × (Nat × Nat)) × WindowState :=
  let ws1 := ws.reset_cell
  let ws2 :=
    if (ws1.buffer.drop ws1.display_offset).length + 1 > ws1.grid.rows * ws1.grid.cols then
      ws1.scroll
    else ws1
  renderLoop ws2 (ws2.buffer.drop ws2.display_offset)

/-- Advance of the cell cursor as a function on cells, the projection of
WindowState.advance onto the next_cell field. -/
def advanceCell (cols : Nat) (cell : Nat × Nat) : Nat × Nat :=
  if cell.2 = cols - 1 then (cell.1 + 1, 0) else (cell.1, cell.2 + 1)

/-- Cell reached from a start cell after n single column advances. -/
def cellAfter (cols : Nat) (cell : Nat × Nat) : Nat → Nat × Nat
  | 0 => cell
  | n + 1 => cellAfter cols (advanceCell cols cell) n

/-- Characters of a list paired with consecutive cells starting at a given
cell, advancing one column per character. -/
def walkCells (cols : Nat) : Nat × Nat → List Char → List (Char × (Nat × Nat))
  | _, [] => []
  | cell, c :: rest => (c, cell) :: walkCells cols (advanceCell cols cell) rest

/-- Display offset after one render pass: the source scrolls exactly once,
by cols, when the visible slice length plus one exceeds rows times cols
(src/src/main.rs lines 381-383). -/
def newOffset (ws : WindowState) : Nat :=
  if (ws.buffer.drop ws.display_offset).length + 1 > ws.grid.rows * ws.grid.cols then
    ws.display_offset + ws.grid.cols
  else ws.display_offset

/-- Append of one character to the buffer, the push in the key handling of
tick (src/src/main.rs line 884). -/
def appendChar (c : Char) (ws : WindowState) : WindowState :=
  { ws with buffer := ws.buffer ++ [c] }

/-- Removal of the last buffered character, the pop on the Backspace key in
tick (src/src/main.rs line 881).  String pop removes the final character
and does nothing on an empty string. -/
def delete_last (ws : WindowState) : WindowState :=
  { ws with buffer := ws.buffer.dropLast }

/-- The framebuffer resize callback installed in init (src/src/main.rs
lines 790-795).  Its closure only issues gl Viewport with the new size and
captures no WindowState, and the event match in tick discards resize
events, so a resize event leaves the whole WindowState unchanged. -/
def framebuffer_size_callback (ws : WindowState) (_width _height : ℚ) : WindowState := ws

/-- The operations that mutate the WindowState across the life of the
program: append and backspace from the key handling in tick, resize events,
and the state effect of one render pass. -/
inductive Op where
  | append (c : Char)
  | backspace
  | resize (width height : ℚ)
  | render

/-- Effect of one operation on the WindowState.  A resize event is applied
through update_size, which is generous to the source: the installed
callback (framebuffer_size_callback) does not even do that much. -/
def applyOp (ws : WindowState) : Op → WindowState
  | Op.append c => appendChar c ws
  | Op.backspace => delete_last ws
  | Op.resize w h => ws.update_size w h
  | Op.render => (render_pass_cells ws).2

/-- Effect of a sequence of operations, first operation first. -/
def applyOps (ws : WindowState) (ops : List Op) : WindowState :=
  ops.foldl applyOp ws

/-- Alternating run of the grid model: one appended character followed by
one render pass, repeated.  This is the regime of the main loop when at
most one key event arrives per frame. -/
def runAltern : WindowState → List Char → WindowState
  | ws, [] => ws
  | ws, c :: cs => runAltern (render_pass_cells (appendChar c ws)).2 cs

/-- Arithmetic shift right by six bits on a signed machine integer, the
Rust expression value >> 6 on i64, which is floor division by 64. -/
def shr6 (a : Int) : Int :=
  Int.fdiv a 64

/-- Accumulation of max_advance and max_height in load_font_chars
(src/src/main.rs lines 175-257) with the FreeType and texture calls
elided.  Inputs are the face metrics height, which FT_Set_Pixel_Sizes
fixes once for the whole repertoire, and the glyph records the rasterizer
produces for character codes 0 to 126, in repertoire order.  Both maxima
start at zero; per glyph the source runs, in order,
if (metrics.height >> 6) > max_height then max_height = metrics.height >> 6
and if glyph.advance.x > max_advance then max_advance = glyph.advance.x >> 6
(lines 194-199).  Note the second comparison reads the raw 26.6 advance
while the stored value is in pixels.  Returns (max_advance, max_height). -/
def load_font_chars_metrics (metrics_height : Int) (glyphs : List Character) : Int × Int :=
  glyphs.foldl
    (fun acc g =>
      let max_height := if shr6 metrics_height > acc.2 then shr6 metrics_height else acc.2
      let max_advance := if g.advance > acc.1 then shr6 g.advance else acc.1
      (max_advance, max_height))
    (0, 0)

/-- calculate_textured_quad_vertices (src/src/main.rs lines 602-677) over
exact rationals: the twenty vertex components (four vertices of x, y, z,
u, v) and the six indices of the two triangles.  The f32 literal 0.2 of
the source is modelled as one fifth. -/
def calculate_textured_quad_vertices (cell : Nat × Nat) (character : Character)
    (window_width window_height : ℚ) (nrows ncols : Nat) : List ℚ × List Nat :=
  let row := cell.1
  let col := cell.2
  let cell_width : ℚ := 2 / (ncols : ℚ)
  let cell_height : ℚ := 2 / (nrows : ℚ)
  let cell_x : ℚ := -1 + (col : ℚ) * cell_width
  let cell_y : ℚ := 1 - ((row : ℚ) + 1) * cell_height
  let normalized_advance : ℚ := ((shr6 character.advance : ℤ) : ℚ) / (window_width * 2)
  let usable_cell_width := cell_width - normalized_advance
  let char_width0 : ℚ := (character.size.1 : ℚ) / window_width * 2
  let char_height0 : ℚ := (character.size.2 : ℚ) / window_height * 2
  let char_width := if char_width0 > usable_cell_width then usable_cell_width else char_width0
  let char_height := if char_height0 > cell_height then cell_height else char_height0
  let baseline_offset : ℚ := (character.bearing.2 : ℚ) / window_height * 2
  let char_x := cell_x + (cell_width - char_width) / 2
  let char_y := cell_y + baseline_offset - char_height + cell_height * (1 / 5)
  ([char_x, char_y + char_height, 0, 0, 0,
    char_x + char_width, char_y + char_height, 0, 1, 0,
    char_x, char_y, 0, 0, 1,
    char_x + char_width, char_y, 0, 1, 1],
   [0, 1, 2, 1, 2, 3])

/-- The x components of the four vertices produced by
calculate_textured_quad_vertices, at positions 0, 5, 10 and 15 of the
flat vertex array. -/
def quad_x_coords (vs : List ℚ) : List ℚ :=
  [vs.getD 0 0, vs.getD 5 0, vs.getD 10 0, vs.getD 15 0]

/-- The for loop of render_screen_buffer including the glyph lookup
characters.get(&c).unwrap() of src/src/main.rs line 386: a missing
character panics, modelled as none, otherwise the character is emitted at
the current cell and the cursor advances. -/
def renderLoopE (chars : Char → Option Character) :
    WindowState → List Char → Option (List (Char × (Nat × Nat)) × WindowState)
  | ws, [] => some ([], ws)
  | ws, c :: rest =>
    match chars c with
    | none => none
    | some _ =>
      (renderLoopE chars ws.advance rest).map fun r => ((c, ws.next_cell) :: r.1, r.2)

/-- render_screen_buffer (src/src/main.rs lines 368-417) with the draw
calls elided but the per character glyph lookup kept: reset, scroll once
on overflow, then walk the visible slice, failing like the unwrap of the
source if any visible character is outside the cached repertoire. -/
def render_screen_buffer (chars : Char → Option Character) (ws : WindowState) :
    Option (List (Char × (Nat × Nat)) × WindowState) :=
  let ws1 := ws.reset_cell
  let ws2 :=
    if (ws1.buffer.drop ws1.display_offset).length + 1 > ws1.grid.rows * ws1.grid.cols then
      ws1.scroll
    else ws1
  renderLoopE chars ws2 (ws2.buffer.drop ws2.display_offset)

/-- The repertoire cached by load_font_chars: one glyph per character code
0 to 126 (src/src/main.rs lines 184, 248).  The glyph payload is
irrelevant to the lookup, only membership matters. -/
def ascii_chars : Char → Option Character :=
  fun c => if c.toNat < 127 then some ⟨0, (0, 0), (0, 0), 0⟩ else none

/-- Boundary state for the scroll condition: a 2 by 3 grid whose six cells
are exactly filled by the buffer. -/
def wsBoundary : WindowState :=
  { width := 30, height := 50, grid := ⟨2, 3, 10, 25⟩,
    buffer := ['A', 'B', 'C', 'D', 'E', 'F'], display_offset := 0, next_cell := (0, 0) }

/-- State of the boundary scenario of the specification: seven characters
on a 2 by 3 grid. -/
def wsWalk : WindowState :=
  { width := 30, height := 50, grid := ⟨2, 3, 10, 25⟩,
    buffer := ['A', 'B', 'C', 'D', 'E', 'F', 'G'], display_offset := 0, next_cell := (0, 0) }

/-- One by one grid holding three characters: a render pass scrolls and a
second render pass scrolls again. -/
def wsTiny : WindowState :=
  { width := 1, height := 1, grid := ⟨1, 1, 1, 1⟩,
    buffer := ['a', 'b', 'c'], display_offset := 0, next_cell := (0, 0) }

/-- Small settled state: two characters on a 2 by 3 grid, no overflow. -/
def wsSettled : WindowState :=
  { width := 30, height := 50, grid := ⟨2, 3, 10, 25⟩,
    buffer := ['A', 'B'], display_offset := 0, next_cell := (0, 0) }

/-- Freshly constructed one by one grid with an empty buffer. -/
def wsOne : WindowState :=
  { width := 1, height := 1, grid := ⟨1, 1, 1, 1⟩,
    buffer := [], display_offset := 0, next_cell := (0, 0) }

/-- Four appends delivered between two frames, then one render pass. -/
def opsMany : List Op :=
  [Op.append 'a', Op.append 'b', Op.append 'c', Op.append 'd', Op.render]

/-- State with a nonempty buffer for the backspace claims. -/
def wsNonempty : WindowState :=
  { width := 30, height := 50, grid := ⟨2, 3, 10, 25⟩,
    buffer := ['h', 'i'], display_offset := 0, next_cell := (0, 0) }

/-- Buffer holding a character outside the cached repertoire followed by a
supported one. -/
def wsUnsupported : WindowState :=
  { width := 30, height := 50, grid := ⟨2, 3, 10, 25⟩,
    buffer := [Char.ofNat 200, 'a'], display_offset := 0, next_cell := (0, 0) }

/-- Initial WindowState of init (src/src/main.rs line 797): 800 by 600
viewport with a cell pitch of 10 by 25 pixels. -/
def wsResize : WindowState :=
  WindowState.new 800 600 ⟨10, 25⟩

/-- Glyph whose raw 26.6 advance is 128, that is 2 pixels, with a bitmap
100 pixels tall. -/
def ftWide : Character :=
  ⟨0, (6, 100), (0, 0), 128⟩

/-- Glyph whose raw 26.6 advance is 64, that is 1 pixel. -/
def ftNarrow : Character :=
  ⟨0, (6, 6), (0, 0), 64⟩

/-- Glyph with the bitmap of the specification scenario, 10 by 20 pixels,
but an advance of 100 pixels (6400 in 26.6 units). -/
def glyphWide : Character :=
  ⟨0, (10, 20), (0, 0), 6400⟩

/-- Ordinary glyph: bitmap 10 by 20 pixels, advance 10 pixels (640 in 26.6
units). -/
def glyphNormal : Character :=
  ⟨0, (10, 20), (2, 15), 640⟩

lemma WindowState.advance_eq (ws : WindowState) :
    ws.advance = { ws with next_cell := advanceCell ws.grid.cols ws.next_cell } := by
  by_cases h : ws.next_cell.2 = ws.grid.cols - 1 <;>
    simp [WindowState.advance, advanceCell, h]

lemma renderLoop_eq (l : List Char) (ws : WindowState) :
    renderLoop ws l =
      (walkCells ws.grid.cols ws.next_cell l,
       { ws with next_cell := cellAfter ws.grid.cols ws.next_cell l.length }) := by
  induction l generalizing ws with
  | nil => rfl
  | cons c rest ih =>
    simp only [renderLoop, walkCells, ih, WindowState.advance_eq, List.length_cons]
    rfl

lemma render_pass_cells_eval (ws : WindowState) :
    render_pass_cells ws =
      (walkCells ws.grid.cols (0, 0) (ws.buffer.drop (newOffset ws)),
       { ws with
         display_offset := newOffset ws
         next_cell :=
           cellAfter ws.grid.cols (0, 0) (ws.buffer.drop (newOffset ws)).length }) := by
  unfold render_pass_cells newOffset WindowState.reset_cell WindowState.scroll
  dsimp only
  by_cases h :
      (ws.buffer.drop ws.display_offset).length + 1 > ws.grid.rows * ws.grid.cols
  · simp only [if_pos h, renderLoop_eq]
  · simp only [if_neg h, renderLoop_eq]

lemma walkCells_map_fst (cols : Nat) (cell : Nat × Nat) (l : List Char) :
    (walkCells cols cell l).map (fun e => e.1) = l := by
  induction l generalizing cell with
  | nil => rfl
  | cons c rest ih => simp [walkCells, ih]

lemma walkCells_get (cols : Nat) (l : List Char) (cell : Nat × Nat) (i : Nat) :
    (walkCells cols cell l)[i]? = l[i]?.map fun c => (c, cellAfter cols cell i) := by
  induction l generalizing cell i with
  | nil => simp [walkCells]
  | cons c rest ih =>
    cases i with
    | zero => simp [walkCells, cellAfter]
    | succ i =>
      simp only [walkCells, List.getElem?_cons_succ]
      rw [ih]
      rfl

lemma renderLoopE_isSome (chars : Char → Option Character) (l : List Char) (ws : WindowState) :
    (renderLoopE chars ws l).isSome ↔ ∀ c ∈ l, (chars c).isSome := by
  induction l generalizing ws with
  | nil => simp [renderLoopE]
  | cons c rest ih =>
    cases hc : chars c with
    | none => simp [renderLoopE, hc]
    | some g => simp [renderLoopE, hc, ih]

/-- C1 (corrected claim, counterexample): on a full 2 by 3 grid the number
of visible characters, six, does not exceed rows times cols, yet the render
pass advances display_offset by cols. -/
theorem scroll_at_exact_fit_counterexample :
    wsBoundary.buffer.length - wsBoundary.display_offset ≤
      wsBoundary.grid.rows * wsBoundary.grid.cols
  ∧ (render_pass_cells wsBoundary).2.display_offset =
      wsBoundary.display_offset + wsBoundary.grid.cols
  ∧ wsBoundary.grid.cols ≠ 0 := by
  decide

/-- C1 (amended): a render pass advances display_offset by exactly cols
when the number of visible characters plus one, for the cursor cell,
exceeds rows times cols, and leaves it unchanged otherwise; the emitted
characters are exactly the buffer from the post scroll offset on, so the
scroll takes effect before any cell is emitted. -/
theorem scroll_threshold_offset (ws : WindowState) :
    (render_pass_cells ws).2.display_offset =
      (if ws.buffer.length - ws.display_offset + 1 > ws.grid.rows * ws.grid.cols then
        ws.display_offset + ws.grid.cols
      else ws.display_offset)
  ∧ ((render_pass_cells ws).1).map (fun e => e.1) =
      ws.buffer.drop ((render_pass_cells ws).2.display_offset) := by
  rw [render_pass_cells_eval]
  dsimp only
  constructor
  · unfold newOffset
    rw [List.length_drop]
  · exact walkCells_map_fst _ _ _

/-- C4: with at least one column, the render pass pairs the i-th visible
character, counting from the post scroll display offset, with the cell
reached from (0,0) by i single column advances, and the final next_cell is
the cell immediately after the last rendered character, in particular
(0,0) when nothing is visible. -/
theorem render_walk_cells (ws : WindowState) (_hcols : 1 ≤ ws.grid.cols) :
    (∀ i : Nat,
        ((render_pass_cells ws).1)[i]? =
          (ws.buffer.drop ((render_pass_cells ws).2.display_offset))[i]?.map
            (fun c => (c, cellAfter ws.grid.cols (0, 0) i)))
  ∧ (render_pass_cells ws).2.next_cell =
      cellAfter ws.grid.cols (0, 0)
        (ws.buffer.drop ((render_pass_cells ws).2.display_offset)).length := by
  rw [render_pass_cells_eval]
  dsimp only
  exact ⟨fun i => walkCells_get _ _ _ i, rfl⟩

/-- Witness for render_walk_cells at the boundary scenario of the
specification: seven characters on a 2 by 3 grid leave characters D to G
visible, the fourth visible character G lands in cell (1,0), and the
cursor cell is (1,1). -/
theorem render_walk_cells_witness :
    1 ≤ wsWalk.grid.cols
  ∧ ((render_pass_cells wsWalk).1)[3]? = some ('G', 1, 0)
  ∧ (render_pass_cells wsWalk).2.next_cell = (1, 1) := by
  refine ⟨by decide, ?_, ?_⟩
  · have h := (render_walk_cells wsWalk (by decide)).1 3
    rw [h]
    decide
  · have h := (render_walk_cells wsWalk (by decide)).2
    rw [h]
    decide

/-- C5 (corrected claim, counterexample): on a one by one grid holding
three characters, a second render pass run directly after a first one
scrolls again, so the two passes emit different cell sequences and end
with different next cells. -/
theorem render_pass_not_idempotent_counterexample :
    (render_pass_cells (render_pass_cells wsTiny).2).1 ≠ (render_pass_cells wsTiny).1
  ∧ (render_pass_cells (render_pass_cells wsTiny).2).2.next_cell ≠
      (render_pass_cells wsTiny).2.next_cell := by
  decide

/-- C5 (amended): when the state left by a render pass no longer overflows
the grid, a second render pass with no mutation in between emits the same
sequence and leaves the state unchanged, so it also reports the same
next_cell. -/
theorem render_pass_idempotent_when_settled (ws : WindowState)
    (h : ((render_pass_cells ws).2.buffer.drop (render_pass_cells ws).2.display_offset).length + 1 ≤
        (render_pass_cells ws).2.grid.rows * (render_pass_cells ws).2.grid.cols) :
    render_pass_cells (render_pass_cells ws).2 =
      ((render_pass_cells ws).1, (render_pass_cells ws).2) := by
  rw [render_pass_cells_eval ws] at h ⊢
  dsimp only at h ⊢
  generalize hN : newOffset ws = N at h ⊢
  rw [render_pass_cells_eval]
  dsimp only
  have hno : newOffset
      { ws with
        display_offset := N
        next_cell := cellAfter ws.grid.cols (0, 0) (ws.buffer.drop N).length } = N := by
    unfold newOffset
    dsimp only
    rw [if_neg (by omega)]
  rw [hno]

/-- Witness for render_pass_idempotent_when_settled: two characters on a
2 by 3 grid do not overflow, and the second pass reproduces the first. -/
theorem render_pass_idempotent_when_settled_witness :
    (((render_pass_cells wsSettled).2.buffer.drop
        (render_pass_cells wsSettled).2.display_offset).length + 1 ≤
      (render_pass_cells wsSettled).2.grid.rows * (render_pass_cells wsSettled).2.grid.cols)
  ∧ render_pass_cells (render_pass_cells wsSettled).2 =
      ((render_pass_cells wsSettled).1, (render_pass_cells wsSettled).2) :=
  ⟨by decide, render_pass_idempotent_when_settled wsSettled (by decide)⟩

lemma runAltern_step_inv (ws : WindowState) (c : Char)
    (hcols : 1 ≤ ws.grid.cols)
    (hmod : ws.display_offset % ws.grid.cols = 0)
    (hlen : ws.buffer.length - ws.display_offset ≤ ws.grid.rows * ws.grid.cols) :
    (render_pass_cells (appendChar c ws)).2.grid = ws.grid
  ∧ (render_pass_cells (appendChar c ws)).2.display_offset % ws.grid.cols = 0
  ∧ (render_pass_cells (appendChar c ws)).2.buffer.length -
      (render_pass_cells (appendChar c ws)).2.display_offset ≤
        ws.grid.rows * ws.grid.cols := by
  rw [render_pass_cells_eval]
  unfold newOffset appendChar
  dsimp only
  simp only [List.length_drop, List.length_append, List.length_cons, List.length_nil]
  refine ⟨trivial, ?_, ?_⟩
  · split
    · rw [Nat.add_mod_right]
      exact hmod
    · exact hmod
  · split <;> omega

lemma runAltern_inv (cs : List Char) (ws : WindowState)
    (hcols : 1 ≤ ws.grid.cols)
    (hmod : ws.display_offset % ws.grid.cols = 0)
    (hlen : ws.buffer.length - ws.display_offset ≤ ws.grid.rows * ws.grid.cols) :
    (runAltern ws cs).grid = ws.grid
  ∧ (runAltern ws cs).display_offset % ws.grid.cols = 0
  ∧ (runAltern ws cs).buffer.length - (runAltern ws cs).display_offset ≤
      ws.grid.rows * ws.grid.cols := by
  induction cs generalizing ws with
  | nil => exact ⟨rfl, hmod, hlen⟩
  | cons c cs ih =>
    obtain ⟨hg, hm, hl⟩ := runAltern_step_inv ws c hcols hmod hlen
    have h1 : 1 ≤ (render_pass_cells (appendChar c ws)).2.grid.cols := by
      rw [hg]; exact hcols
    have h2 : (render_pass_cells (appendChar c ws)).2.display_offset %
        (render_pass_cells (appendChar c ws)).2.grid.cols = 0 := by
      rw [hg]; exact hm
    have h3 : (render_pass_cells (appendChar c ws)).2.buffer.length -
        (render_pass_cells (appendChar c ws)).2.display_offset ≤
          (render_pass_cells (appendChar c ws)).2.grid.rows *
            (render_pass_cells (appendChar c ws)).2.grid.cols := by
      rw [hg]; exact hl
    obtain ⟨g2, m2, l2⟩ := ih _ h1 h2 h3
    rw [hg] at g2 m2 l2
    exact ⟨g2, m2, l2⟩

/-- C2 (corrected claim, counterexample): from a fresh one by one grid,
four appends delivered between two frames followed by one render pass
leave three visible characters, exceeding rows times cols plus one, which
is two. -/
theorem offset_bound_many_appends_counterexample :
    (applyOps wsOne opsMany).buffer.length - (applyOps wsOne opsMany).display_offset = 3
  ∧ (applyOps wsOne opsMany).grid.rows * (applyOps wsOne opsMany).grid.cols + 1 = 2 := by
  decide

/-- C2 (amended): for every sequence of appends with a render pass after
each append, so at most one append between consecutive passes, starting
from a state with at least one column whose display offset is a multiple
of cols and whose visible count is at most rows times cols, after each
render pass the display offset is a multiple of cols and the visible
count is at most rows times cols plus one. -/
theorem render_invariant_alternating (cs : List Char) (ws : WindowState)
    (hcols : 1 ≤ ws.grid.cols)
    (hmod : ws.display_offset % ws.grid.cols = 0)
    (hlen : ws.buffer.length - ws.display_offset ≤ ws.grid.rows * ws.grid.cols) :
    (runAltern ws cs).display_offset % (runAltern ws cs).grid.cols = 0
  ∧ (runAltern ws cs).buffer.length - (runAltern ws cs).display_offset ≤
      (runAltern ws cs).grid.rows * (runAltern ws cs).grid.cols + 1 := by
  obtain ⟨hg, hm, hl⟩ := runAltern_inv cs ws hcols hmod hlen
  rw [hg]
  exact ⟨hm, le_trans hl (Nat.le_succ _)⟩

/-- Witness for render_invariant_alternating: the boundary scenario of the
specification typed one key per frame on a 2 by 3 grid ends with display
offset 3 and four visible characters. -/
theorem render_invariant_alternating_witness :
    (1 ≤ wsBoundary.grid.cols
      ∧ wsBoundary.display_offset % wsBoundary.grid.cols = 0
      ∧ wsBoundary.buffer.length - wsBoundary.display_offset ≤
          wsBoundary.grid.rows * wsBoundary.grid.cols)
  ∧ ((runAltern wsBoundary ['G']).display_offset % (runAltern wsBoundary ['G']).grid.cols = 0
      ∧ (runAltern wsBoundary ['G']).buffer.length -
          (runAltern wsBoundary ['G']).display_offset ≤
            (runAltern wsBoundary ['G']).grid.rows * (runAltern wsBoundary ['G']).grid.cols + 1) := by
  refine ⟨by decide, ?_⟩
  exact render_invariant_alternating ['G'] wsBoundary (by decide) (by decide) (by decide)

/-- C3 (code bug): load_font_chars compares the raw 26.6 advance against
the stored pixel maximum and takes the height from the constant face
metrics rather than the glyph bitmaps.  For a repertoire of two glyphs
with pixel advances 2 then 1 under face metrics height 16 pixels, the
returned max_advance is 1, below the 2 pixel advance of the first glyph,
and the returned max_height is 16, below its bitmap height of 100. -/
theorem load_font_chars_metrics_bug :
    load_font_chars_metrics 1024 [ftWide, ftNarrow] = (1, 16)
  ∧ shr6 ftWide.advance = 2
  ∧ ¬(shr6 ftWide.advance ≤ (load_font_chars_metrics 1024 [ftWide, ftNarrow]).1)
  ∧ ftWide.size.2 = 100
  ∧ ¬(ftWide.size.2 ≤ (load_font_chars_metrics 1024 [ftWide, ftNarrow]).2) := by
  decide

/-- C7 (corrected claim, counterexample): a buffered character outside the
cached repertoire makes the render pass fail like the unwrap of the
source, so the supported character after it is never rendered; nothing is
skipped and the pass does not continue. -/
theorem lookup_miss_aborts_counterexample :
    render_screen_buffer ascii_chars wsUnsupported = none := by
  rfl

/-- C7 (amended): a glyph lookup miss panics and aborts the render pass
instead of being skipped; the pass completes exactly when every visible
character, from the post scroll display offset on, is inside the cached
repertoire. -/
theorem render_succeeds_iff_supported (chars : Char → Option Character) (ws : WindowState) :
    (render_screen_buffer chars ws).isSome ↔
      ∀ c ∈ ws.buffer.drop (newOffset ws), (chars c).isSome := by
  unfold render_screen_buffer newOffset WindowState.reset_cell WindowState.scroll
  dsimp only
  by_cases h :
      (ws.buffer.drop ws.display_offset).length + 1 > ws.grid.rows * ws.grid.cols
  · simp only [if_pos h]
    exact renderLoopE_isSome chars _ _
  · simp only [if_neg h]
    exact renderLoopE_isSome chars _ _

/-- C8 (code bug): a resize event does not reach the grid model.  The
installed callback leaves the WindowState untouched, so after resizing the
800 by 600 viewport to 400 by 600 the grid still has 80 columns, while the
update_size helper the claim describes, which the program never calls,
would indeed recompute 40 columns and 24 rows from the cached 10 by 25
pitch while leaving buffer and display offset unchanged. -/
theorem resize_event_ignores_grid :
    framebuffer_size_callback wsResize 400 600 = wsResize
  ∧ wsResize.grid.cols = 80
  ∧ wsResize.grid.rows = 24
  ∧ (wsResize.update_size 400 600).grid.cols = 40
  ∧ (wsResize.update_size 400 600).grid.rows = 24
  ∧ (wsResize.update_size 400 600).buffer = wsResize.buffer
  ∧ (wsResize.update_size 400 600).display_offset = wsResize.display_offset := by
  refine ⟨rfl, ?_, ?_, ?_, ?_, rfl, rfl⟩ <;>
  · simp only [wsResize, WindowState.new, WindowState.update_size]
    norm_num [Rat.floor_def']
    all_goals decide

/-- C9: backspace removes exactly the last character of a nonempty buffer,
an append followed by backspace restores the whole state, backspace on an
empty buffer is a no-op rather than an error, and append always succeeds,
growing the buffer by one with no capacity cap. -/
theorem delete_last_append_semantics (ws : WindowState) (c : Char) (h : ws.buffer ≠ []) :
    (delete_last ws).buffer ++ [ws.buffer.getLast h] = ws.buffer
  ∧ delete_last (appendChar c ws) = ws
  ∧ delete_last { ws with buffer := [] } = { ws with buffer := [] }
  ∧ (appendChar c ws).buffer.length = ws.buffer.length + 1 := by
  refine ⟨?_, ?_, rfl, ?_⟩
  · simpa [delete_last] using List.dropLast_append_getLast h
  · show ({ ws with buffer := (ws.buffer ++ [c]).dropLast } : WindowState) = ws
    rw [List.dropLast_concat]
  · simp [appendChar]

/-- Witness for delete_last_append_semantics on a concrete two character
buffer. -/
theorem delete_last_append_semantics_witness :
    wsNonempty.buffer ≠ []
  ∧ ((delete_last wsNonempty).buffer ++ [wsNonempty.buffer.getLast (by decide)] =
        wsNonempty.buffer
      ∧ delete_last (appendChar 'x' wsNonempty) = wsNonempty
      ∧ delete_last { wsNonempty with buffer := [] } = { wsNonempty with buffer := [] }
      ∧ (appendChar 'x' wsNonempty).buffer.length = wsNonempty.buffer.length + 1) :=
  ⟨by decide, delete_last_append_semantics wsNonempty 'x' (by decide)⟩

/-- C10: no operation of the program, append, backspace, resize or render
pass, ever decreases display_offset; the only mutation is the scroll
inside the render pass, which adds cols.  Characters scrolled off the top
therefore never become visible again, even after deletions shrink the
buffer. -/
theorem display_offset_monotone (ops : List Op) (ws : WindowState) :
    ws.display_offset ≤ (applyOps ws ops).display_offset := by
  induction ops generalizing ws with
  | nil => exact Nat.le_refl _
  | cons op rest ih =>
    have hstep : ws.display_offset ≤ (applyOp ws op).display_offset := by
      cases op with
      | append c => exact Nat.le_refl _
      | backspace => exact Nat.le_refl _
      | resize w h => exact Nat.le_refl _
      | render =>
        show ws.display_offset ≤ (render_pass_cells ws).2.display_offset
        rw [render_pass_cells_eval]
        dsimp only
        unfold newOffset
        split <;> omega
    exact le_trans hstep (ih (applyOp ws op))

lemma clamped_width_bounds (n w s A : ℚ) (hn : 1 ≤ n) (hw : 0 < w)
    (hA : 0 ≤ A) (hs : 0 ≤ s) (hAn : A * n ≤ 8 * w) :
    -(2 / n) ≤ (if s / w * 2 > 2 / n - A / (w * 2) then 2 / n - A / (w * 2) else s / w * 2)
  ∧ (if s / w * 2 > 2 / n - A / (w * 2) then 2 / n - A / (w * 2) else s / w * 2) ≤ 2 / n := by
  have hn0 : (0 : ℚ) < n := lt_of_lt_of_le one_pos hn
  have hadv0 : (0 : ℚ) ≤ A / (w * 2) := div_nonneg hA (by linarith)
  have hcw0 : (0 : ℚ) ≤ 2 / n := div_nonneg (by norm_num) (le_of_lt hn0)
  have hw00 : (0 : ℚ) ≤ s / w * 2 := mul_nonneg (div_nonneg hs (le_of_lt hw)) (by norm_num)
  have hpad2 : A / (w * 2) ≤ 2 / n + 2 / n := by
    rw [show (2 : ℚ) / n + 2 / n = 4 / n by ring]
    rw [div_le_div_iff₀ (by linarith) hn0]
    linarith
  constructor
  · split
    · linarith
    · linarith
  · split
    · linarith
    · rename_i hcl
      push_neg at hcl
      linarith

/-- C6 (corrected claim, counterexample): at the 800 by 600 viewport with
an 80 by 24 grid, a glyph with the bitmap of the specification scenario,
10 by 20 pixels, but a 100 pixel advance yields a negative clamped width;
the centering formula then places the first vertex at x = -31/32, beyond
the right edge of cell (0,0), which is at -39/40. -/
theorem quad_x_overflow_counterexample :
    (quad_x_coords
        (calculate_textured_quad_vertices (0, 0) glyphWide 800 600 24 80).1).getD 0 0 >
      -1 + ((((0, 0) : Nat × Nat).2 : ℚ)) * (2 / ((80 : Nat) : ℚ)) + 2 / ((80 : Nat) : ℚ) := by
  have h1 : ((shr6 glyphWide.advance : ℤ) : ℚ) = 100 := by
    have h0 : shr6 glyphWide.advance = 100 := by decide
    rw [h0]
    norm_num
  have h2 : ((glyphWide.size.1 : ℤ) : ℚ) = 10 := by
    have h0 : glyphWide.size.1 = 10 := by decide
    rw [h0]
    norm_num
  simp only [calculate_textured_quad_vertices, quad_x_coords, List.getD_cons_zero, h1, h2]
  split_ifs with hcond
  · norm_num
  · exfalso
    apply hcond
    norm_num

/-- C6 (amended): for every glyph with nonnegative advance and bitmap
width and every grid with rows, cols at least one and positive viewport
dimensions, provided the advance derived padding does not exceed twice the
cell width, that is advance in pixels times cols is at most eight times
the viewport width, every vertex x coordinate of the textured quad stays
at or left of cell_x plus the cell width in normalized coordinates. -/
theorem quad_x_within_cell (cell : Nat × Nat) (character : Character)
    (window_width window_height : ℚ) (nrows ncols : Nat)
    (_hrows : 1 ≤ nrows) (hcols : 1 ≤ ncols)
    (hww : 0 < window_width) (_hwh : 0 < window_height)
    (hadv : 0 ≤ character.advance)
    (hbw : 0 ≤ character.size.1)
    (hpad : ((shr6 character.advance : ℤ) : ℚ) * (ncols : ℚ) ≤ 8 * window_width) :
    ∀ x ∈ quad_x_coords
        (calculate_textured_quad_vertices cell character window_width window_height
          nrows ncols).1,
      x ≤ -1 + ((cell.2 : ℚ)) * (2 / (ncols : ℚ)) + 2 / (ncols : ℚ) := by
  intro x hx
  have hn : (1 : ℚ) ≤ (ncols : ℚ) := by exact_mod_cast hcols
  have hA0 : (0 : ℚ) ≤ ((shr6 character.advance : ℤ) : ℚ) := by
    have h0 : (0 : ℤ) ≤ shr6 character.advance := Int.fdiv_nonneg hadv (by norm_num)
    exact_mod_cast h0
  have hs0 : (0 : ℚ) ≤ ((character.size.1 : ℤ) : ℚ) := by exact_mod_cast hbw
  obtain ⟨hlow, hhigh⟩ :=
    clamped_width_bounds (ncols : ℚ) window_width ((character.size.1 : ℤ) : ℚ)
      ((shr6 character.advance : ℤ) : ℚ) hn hww hA0 hs0 hpad
  simp only [calculate_textured_quad_vertices, quad_x_coords, List.getD_cons_zero,
    List.getD_cons_succ, List.mem_cons, List.not_mem_nil, or_false] at hx
  rcases hx with h | h | h | h <;> subst h <;> linarith [hlow, hhigh]

/-- Witness for quad_x_within_cell: an ordinary 10 pixel advance glyph at
the 800 by 600 viewport with an 80 by 24 grid satisfies every hypothesis,
and its first vertex stays inside cell (0,0). -/
theorem quad_x_within_cell_witness :
    ((1 : Nat) ≤ 24 ∧ (1 : Nat) ≤ 80
      ∧ (0 : ℚ) < 800 ∧ (0 : ℚ) < 600
      ∧ 0 ≤ glyphNormal.advance ∧ 0 ≤ glyphNormal.size.1
      ∧ ((shr6 glyphNormal.advance : ℤ) : ℚ) * ((80 : Nat) : ℚ) ≤ 8 * 800)
  ∧ (calculate_textured_quad_vertices (0, 0) glyphNormal 800 600 24 80).1.getD 0 0 ≤
      -1 + ((((0, 0) : Nat × Nat).2 : ℚ)) * (2 / ((80 : Nat) : ℚ)) + 2 / ((80 : Nat) : ℚ) := by
  have hpad : ((shr6 glyphNormal.advance : ℤ) : ℚ) * ((80 : Nat) : ℚ) ≤ 8 * 800 := by
    have h0 : shr6 glyphNormal.advance = 10 := by decide
    rw [h0]
    norm_num
  refine ⟨⟨by norm_num, by norm_num, by norm_num, by norm_num, by decide, by decide, hpad⟩, ?_⟩
  have h := quad_x_within_cell (0, 0) glyphNormal 800 600 24 80 (by norm_num) (by norm_num)
      (by norm_num) (by norm_num) (by decide) (by decide) hpad
  exact h _ (by simp [quad_x_coords])
